import Mathlib

/-!
Verification development for the superliga-api build pipeline
(scripts/build_superliga_2025_2026.py).

The script scrapes two upstream pages (lpf.ro round pages for matches,
lpf2.ro for the standings table), normalizes them into JSON artifacts
(fixtures.json, results.json, standings.json, meta.json) and persists
them idempotently.

Embedding boundary: network fetching and BeautifulSoup HTML-to-text
conversion are external; a World value supplies, for each fetched page,
either the list of text lines (for match pages, the output of
soup_text_lines) / table row texts (for the standings table, the output
of tr.get_text) or the raised exception, identified by its type name.
Everything downstream of that boundary is translated from the source.
-/

/-! ## Python character predicates and string helpers -/

/-- Python whitespace characters recognised by str.strip and the regex
class backslash-s (restricted to the ASCII range; the upstream pages and
all inputs considered here stay in this range plus the Romanian
diacritics, which are not whitespace). -/
def isPySpace (c : Char) : Bool :=
  c = ' ' || c = '\t' || c = '\n' || c = '\x0d' || c = '\x0b' || c = '\x0c'

/-- The Romanian diacritics appearing in the source regex character
class [a-zA-ZăâîșțĂÂÎȘȚ]. -/
def isRoDiacritic (c : Char) : Bool :=
  c = 'ă' || c = 'â' || c = 'î' || c = 'ș' || c = 'ț' ||
  c = 'Ă' || c = 'Â' || c = 'Î' || c = 'Ș' || c = 'Ț'

/-- Letters, for Python ch.isalpha(), modelled on the alphabet the
source deals with: ASCII letters plus the Romanian diacritics. -/
def pyIsAlpha (c : Char) : Bool :=
  (('a' ≤ c && c ≤ 'z') || ('A' ≤ c && c ≤ 'Z')) || isRoDiacritic c

/-- Word characters for the regex boundary assertion: letters, digits
and underscore. -/
def isWordChar (c : Char) : Bool :=
  pyIsAlpha c || c.isDigit || c = '_'

/-- Python str.lower restricted to the alphabet above. -/
def toLowerCh (c : Char) : Char :=
  if 'A' ≤ c && c ≤ 'Z' then Char.ofNat (c.toNat + 32)
  else if c = 'Ă' then 'ă'
  else if c = 'Â' then 'â'
  else if c = 'Î' then 'î'
  else if c = 'Ș' then 'ș'
  else if c = 'Ț' then 'ț'
  else c

/-- Python str.strip with no argument. -/
def pyStrip (s : String) : String :=
  ⟨((s.data.dropWhile isPySpace).reverse.dropWhile isPySpace).reverse⟩

/-- Python str.lower. -/
def pyLower (s : String) : String :=
  ⟨s.data.map toLowerCh⟩

/-- Numeric value of a list of decimal digit characters. -/
def digitsVal (ds : List Char) : Nat :=
  ds.foldl (fun acc c => acc * 10 + (c.toNat - 48)) 0

/-- Python int() on a string of decimal digits (as produced by the
digit-only regex groups of the source). -/
def pyIntOfDigits (s : String) : Nat :=
  digitsVal s.data

/-- Case-insensitive match of an ASCII literal at the head of the
character list; returns the remainder on success. -/
def matchCI : List Char → List Char → Option (List Char)
  | [], cs => some cs
  | _ :: _, [] => none
  | p :: ps, c :: cs => if toLowerCh c = toLowerCh p then matchCI ps cs else none

/-- Case-sensitive literal match at the head of the list. -/
def matchLit : List Char → List Char → Option (List Char)
  | [], cs => some cs
  | _ :: _, [] => none
  | p :: ps, c :: cs => if c = p then matchLit ps cs else none

/-! ## JSON values and canonical comparison -/

mutual

/-- JSON values as handled by the script (json module): the script only
produces nulls, strings, integers, arrays and objects.  Arrays and
object field lists are their own inductive types (rather than List) so
that all recursion over values is structural. -/
inductive Json where
  | null : Json
  | str (s : String) : Json
  | num (n : Int) : Json
  | arr (elems : JsonA) : Json
  | obj (fields : JsonO) : Json

/-- A JSON array, as a list of values. -/
inductive JsonA where
  | nil : JsonA
  | cons (hd : Json) (tl : JsonA) : JsonA

/-- A JSON object, as an ordered list of key-value fields. -/
inductive JsonO where
  | nil : JsonO
  | cons (key : String) (val : Json) (tl : JsonO) : JsonO

end

mutual

/-- Structural equality test on JSON values. -/
def Json.beq : Json → Json → Bool
  | .null, .null => true
  | .str a, .str b => a = b
  | .num a, .num b => a = b
  | .arr a, .arr b => JsonA.beq a b
  | .obj a, .obj b => JsonO.beq a b
  | _, _ => false
termination_by structural a => a

/-- Elementwise equality test on JSON arrays. -/
def JsonA.beq : JsonA → JsonA → Bool
  | .nil, .nil => true
  | .cons h t, .cons h2 t2 => Json.beq h h2 && JsonA.beq t t2
  | _, _ => false
termination_by structural a => a

/-- Elementwise equality test on JSON object field lists. -/
def JsonO.beq : JsonO → JsonO → Bool
  | .nil, .nil => true
  | .cons k v t, .cons k2 v2 t2 => k = k2 && Json.beq v v2 && JsonO.beq t t2
  | _, _ => false
termination_by structural a => a

end

mutual

theorem jsonBeq_iff : ∀ (a b : Json), Json.beq a b = true ↔ a = b
  | .null, b => by cases b <;> simp [Json.beq]
  | .str s, b => by cases b <;> simp [Json.beq]
  | .num n, b => by cases b <;> simp [Json.beq]
  | .arr a, b => by cases b <;> simp [Json.beq, jsonABeq_iff a]
  | .obj o, b => by cases b <;> simp [Json.beq, jsonOBeq_iff o]
termination_by structural a => a

theorem jsonABeq_iff : ∀ (a b : JsonA), JsonA.beq a b = true ↔ a = b
  | .nil, b => by cases b <;> simp [JsonA.beq]
  | .cons h t, b => by
      cases b <;> simp [JsonA.beq, jsonBeq_iff h, jsonABeq_iff t]
termination_by structural a => a

theorem jsonOBeq_iff : ∀ (a b : JsonO), JsonO.beq a b = true ↔ a = b
  | .nil, b => by cases b <;> simp [JsonO.beq]
  | .cons k v t, b => by
      cases b <;> simp [JsonO.beq, jsonBeq_iff v, jsonOBeq_iff t, and_assoc]
termination_by structural a => a

end

instance : DecidableEq Json :=
  fun a b => decidable_of_iff _ (jsonBeq_iff a b)

instance : DecidableEq JsonA :=
  fun a b => decidable_of_iff _ (jsonABeq_iff a b)

instance : DecidableEq JsonO :=
  fun a b => decidable_of_iff _ (jsonOBeq_iff a b)

/-- Build a JSON array from a list of values. -/
def JsonA.ofList : List Json → JsonA
  | [] => .nil
  | j :: rest => .cons j (JsonA.ofList rest)

/-- Build a JSON object from a list of key-value fields, in order. -/
def JsonO.ofList : List (String × Json) → JsonO
  | [] => .nil
  | (k, v) :: rest => .cons k v (JsonO.ofList rest)

/-- Number of elements of a JSON array (Python len on a list). -/
def JsonA.length : JsonA → Nat
  | .nil => 0
  | .cons _ t => JsonA.length t + 1

/-- Code-point lexicographic strict order on strings (Python string <). -/
def strLt (a b : String) : Bool :=
  go a.data b.data
where
  go : List Char → List Char → Bool
    | [], [] => false
    | [], _ :: _ => true
    | _ :: _, [] => false
    | c :: cs, d :: ds => if c.toNat < d.toNat then true
        else if d.toNat < c.toNat then false else go cs ds

/-- Insert a key-value field into a key-sorted field list. -/
def insO (k : String) (v : Json) : JsonO → JsonO
  | .nil => .cons k v .nil
  | .cons k2 v2 tl =>
      if strLt k2 k then .cons k2 v2 (insO k v tl)
      else .cons k v (.cons k2 v2 tl)

mutual

/-- Canonical form of a JSON value: object keys recursively sorted.
stable_dumps serializes with sort_keys=True and fixed separators, and
write_json_if_changed compares sha256 hashes of those serializations;
two values get equal hashes exactly when their canonical forms are
equal (sha256 is collision-free on the values that occur, and the
canonical serialization is injective on them), so the hash comparison
is modelled as equality of canonical forms. -/
def canon : Json → Json
  | .null => .null
  | .str s => .str s
  | .num n => .num n
  | .arr a => .arr (canonA a)
  | .obj o => .obj (canonO o)
termination_by structural j => j

/-- Canonical form of each element of a JSON array. -/
def canonA : JsonA → JsonA
  | .nil => .nil
  | .cons h t => .cons (canon h) (canonA t)
termination_by structural a => a

/-- Canonical (key-sorted) form of a JSON object field list. -/
def canonO : JsonO → JsonO
  | .nil => .nil
  | .cons k v t => insO k (canon v) (canonO t)
termination_by structural o => o

end

/-! ## File system model and idempotent persistence -/

/-- On-disk content of one artifact file: either a JSON document (the
value json.load would return) or bytes that fail to read/parse. -/
inductive FileData where
  | json (j : Json) : FileData
  | corrupt : FileData
deriving DecidableEq

/-- The output directory as a map from path to file content; newest
binding first. -/
def FS : Type := List (String × FileData)

instance : DecidableEq FS := by
  unfold FS
  infer_instance

/-- os.path.exists + open + read, as one lookup. -/
def FS.read (fs : FS) (path : String) : Option FileData :=
  (fs.find? (fun e => e.1 = path)).map (·.2)

/-- Writing a file (json.dump); the stored content is the value itself,
since json.dump followed by json.load round-trips the values that
occur. -/
def FS.set (fs : FS) (path : String) (d : FileData) : FS :=
  (path, d) :: fs

/-- write_json_if_changed: serialize canonically and hash; if the file
exists and parses, compare hashes and skip the write on a match; a
missing or unreadable file never suppresses the write. Returns the
wasWritten flag together with the new file system. -/
def write_json_if_changed (fs : FS) (path : String) (v : Json) : Bool × FS :=
  match fs.read path with
  | some (.json old) =>
      if canon old = canon v then (false, fs)
      else (true, fs.set path (.json v))
  | some .corrupt => (true, fs.set path (.json v))
  | none => (true, fs.set path (.json v))

/-- read_existing: parse the file at path, returning none when it is
missing or unreadable. -/
def read_existing (fs : FS) (path : String) : Option Json :=
  match fs.read path with
  | some (.json j) => some j
  | some .corrupt => none
  | none => none

/-! ## Output paths -/

def SEASON : String := "2025-2026"

def OUTDIR : String := "public/superliga/" ++ SEASON

def fixturesPath : String := OUTDIR ++ "/fixtures.json"

def resultsPath : String := OUTDIR ++ "/results.json"

def standingsPath : String := OUTDIR ++ "/standings.json"

def metaPath : String := OUTDIR ++ "/meta.json"

/-! ## Line classifiers of the match-page scraper -/

/-- Components captured by the datetime regex
(day, month-name, year, comma, hour, minute). -/
structure RoDT where
  dd : Nat
  mon : String
  yyyy : Nat
  hh : Nat
  mm : Nat
deriving DecidableEq

/-- Match of the anchored datetime pattern: one or two digits, spaces,
three letters of the class [a-zA-ZăâîșțĂÂÎȘȚ], spaces, four digits, a
comma, optional spaces, one or two digits, a colon, two digits, end of
string (or a single trailing newline, which the dollar anchor also
accepts).  Each greedy bounded-repeat of the pattern is resolved
against the following literal, which the digit/space runs make
deterministic. -/
def dtMatch (s : String) : Option RoDT :=
  let (d1, r1) := s.data.span Char.isDigit
  if d1.length = 0 || d1.length > 2 then none else
  let (sp1, r2) := r1.span isPySpace
  if sp1.length = 0 then none else
  match r2 with
  | m1 :: m2 :: m3 :: r3 =>
    if pyIsAlpha m1 && pyIsAlpha m2 && pyIsAlpha m3 then
      let (sp2, r4) := r3.span isPySpace
      if sp2.length = 0 then none else
      let (d2, r5) := r4.span Char.isDigit
      if d2.length ≠ 4 then none else
      match r5 with
      | ',' :: r6 =>
        let (_, r7) := r6.span isPySpace
        let (d3, r8) := r7.span Char.isDigit
        if d3.length = 0 || d3.length > 2 then none else
        match r8 with
        | ':' :: r9 =>
          let (d4, r10) := r9.span Char.isDigit
          if d4.length ≠ 2 then none else
          match r10 with
          | [] => some ⟨digitsVal d1, ⟨[m1, m2, m3]⟩, digitsVal d2, digitsVal d3, digitsVal d4⟩
          | ['\n'] => some ⟨digitsVal d1, ⟨[m1, m2, m3]⟩, digitsVal d2, digitsVal d3, digitsVal d4⟩
          | _ => none
        | _ => none
      | _ => none
    else none
  | _ => none

def is_datetime_line (ln : String) : Bool :=
  (dtMatch ln).isSome

/-- The Romanian month abbreviations. -/
def RO_MONTH : List (String × Nat) :=
  [("ian", 1), ("feb", 2), ("mar", 3), ("apr", 4), ("mai", 5), ("iun", 6),
   ("iul", 7), ("aug", 8), ("sep", 9), ("oct", 10), ("nov", 11), ("dec", 12)]

def roMonthLookup (m : String) : Option Nat :=
  (RO_MONTH.find? (fun p => p.1 = m)).map (·.2)

def isLeap (y : Nat) : Bool :=
  (y % 4 = 0 && y % 100 ≠ 0) || y % 400 = 0

def daysInMonth (y m : Nat) : Nat :=
  if m = 2 then (if isLeap y then 29 else 28)
  else if m = 4 || m = 6 || m = 9 || m = 11 then 30
  else 31

/-- Zero-pad to two digits (strftime %d, %m, %H, %M). -/
def pad2 (n : Nat) : String :=
  if n < 10 then "0" ++ toString n else toString n

/-- Year formatting (strftime %Y); the years the pattern accepts are
four-digit. -/
def pad4 (n : Nat) : String :=
  if n < 10 then "000" ++ toString n
  else if n < 100 then "00" ++ toString n
  else if n < 1000 then "0" ++ toString n
  else toString n

/-- parse_datetime_ro: on a regex match, look the month up (None when
unknown), then build the datetime — the constructor raises ValueError
on an out-of-range day, hour or minute, modelled as the error case —
and format the date and time-of-day strings. -/
def parse_datetime_ro (ln : String) : Except String (Option (String × String)) :=
  match dtMatch ln with
  | none => .ok none
  | some r =>
    match roMonthLookup (pyLower r.mon) with
    | none => .ok none
    | some m =>
      if r.yyyy = 0 || r.dd = 0 || r.dd > daysInMonth r.yyyy m || r.hh > 23 || r.mm > 59 then
        .error "ValueError"
      else
        .ok (some (pad4 r.yyyy ++ "-" ++ pad2 m ++ "-" ++ pad2 r.dd,
                   pad2 r.hh ++ ":" ++ pad2 r.mm ++ ":00"))

def noisePhrases : List String :=
  ["data rezultat statistici", "statistici", "image", "etape tur", "etape retur"]

def dayNameStarts : List String :=
  ["vineri", "sâmbătă", "sambata", "duminică", "duminica", "luni",
   "marți", "marti", "miercuri", "joi"]

def strStartsWith (s pre : String) : Bool :=
  (matchLit pre.data s.data).isSome

def is_noise_line (ln : String) : Bool :=
  let l := pyLower (pyStrip ln)
  noisePhrases.contains l || dayNameStarts.any (fun p => strStartsWith l p)

def is_score_token (ln : String) : Bool :=
  let l := pyStrip ln
  l = "-" || (decide (1 ≤ l.data.length) && decide (l.data.length ≤ 2) && l.data.all Char.isDigit)

/-- Anchored match of MJ, spaces, V, spaces, E (the table-header
pattern rejected by is_team_line). -/
def mjHeaderMatch (cs : List Char) : Bool :=
  match matchLit ['M', 'J'] cs with
  | none => false
  | some r1 =>
    let (sp1, r2) := r1.span isPySpace
    decide (1 ≤ sp1.length) &&
      (match matchLit ['V'] r2 with
       | none => false
       | some r3 =>
         let (sp2, r4) := r3.span isPySpace
         decide (1 ≤ sp2.length) && (matchLit ['E'] r4).isSome)

/-- Case-insensitive match of the word Etapa at the head of the list,
with a word boundary on each side; prevWord says whether the character
just before the current position is a word character. -/
def etapaWordAt (prevWord : Bool) (cs : List Char) : Bool :=
  if prevWord then false
  else
    match matchCI ['e', 't', 'a', 'p', 'a'] cs with
    | none => false
    | some [] => true
    | some (c :: _) => !isWordChar c

/-- Case-insensitive search for the word Etapa with word boundaries. -/
def hasEtapaWord (prevWord : Bool) : List Char → Bool
  | [] => false
  | c :: rest => etapaWordAt prevWord (c :: rest) || hasEtapaWord (isWordChar c) rest

def is_team_line (ln : String) : Bool :=
  if is_noise_line ln then false
  else if is_datetime_line ln then false
  else
    let l := pyStrip ln
    if l.data.length < 2 then false
    else if mjHeaderMatch l.data then false
    else if hasEtapaWord false l.data then false
    else l.data.any pyIsAlpha

/-! ## extract_matches_from_round -/

/-- The fields of one normalized match record that vary between
records; the remaining fields of the emitted dict are constants or
derived from these (see matchToJson). -/
structure Match where
  round : String
  dateEvent : String
  strTime : String
  home : String
  away : String
  status : String
  scoreHome : Option Nat
  scoreAway : Option Nat
deriving DecidableEq

/-- Index scan: starting at j, advance while the line at the index
exists and satisfies cont; each while-loop of the extractor advances by
exactly one position per iteration, so all four of its scans take this
form.  Any fuel at least the number of lines is enough. -/
def scanIdx (cont : String → Bool) (lines : List String) : Nat → Nat → Nat
  | 0, j => j
  | fuel + 1, j =>
    match lines.get? j with
    | none => j
    | some l => if cont l then scanIdx cont lines fuel (j + 1) else j

/-- One match-record attempt anchored at the datetime line at index i
(whose parsed date and time are given): find the home team, the home
score token, the away team and the away score token, failing (back to
the scan at i+1) whenever a scan runs off the end or a team check
fails; on success also return the index just past the away score token,
where the outer loop resumes. -/
def tryMatchAt (round_no : Nat) (lines : List String) (i : Nat)
    (dateEvent timeEvent : String) : Option (Match × Nat) :=
  let n := lines.length
  let j := scanIdx (fun l => is_noise_line l || is_score_token l) lines n (i + 1)
  match lines.get? j with
  | none => none
  | some lj =>
    if is_team_line lj then
      let home := pyStrip lj
      let k := scanIdx (fun l => !is_score_token l) lines n (j + 1)
      match lines.get? k with
      | none => none
      | some lk =>
        let hs_tok := pyStrip lk
        let a := scanIdx
          (fun l => is_noise_line l || is_score_token l || is_datetime_line l) lines n (k + 1)
        match lines.get? a with
        | none => none
        | some la =>
          if is_team_line la then
            let away := pyStrip la
            let b := scanIdx (fun l => !is_score_token l) lines n (a + 1)
            match lines.get? b with
            | none => none
            | some lb =>
              let as_tok := pyStrip lb
              let hs := if hs_tok = "-" then none else some (pyIntOfDigits hs_tok)
              let a_s := if as_tok = "-" then none else some (pyIntOfDigits as_tok)
              let status := if hs.isNone || a_s.isNone then "scheduled" else "finished"
              some ({ round := toString round_no, dateEvent := dateEvent,
                      strTime := timeEvent, home := home, away := away,
                      status := status, scoreHome := hs, scoreAway := a_s }, b + 1)
          else none
    else none

/-- The line scan of extract_matches_from_round: at each index, a
datetime line anchors a match-record attempt; a ValueError from the
datetime constructor propagates; on a failed attempt the scan resumes
at the next line, on a successful one just past the consumed record.
Any fuel above the number of lines is enough, as the index grows at
every step. -/
def extractLoop (round_no : Nat) (lines : List String) : Nat → Nat → Except String (List Match)
  | 0, _ => .ok []
  | fuel + 1, i =>
    match lines.get? i with
    | none => .ok []
    | some ln =>
      if is_datetime_line ln then
        match parse_datetime_ro ln with
        | .error e => .error e
        | .ok none => extractLoop round_no lines fuel (i + 1)
        | .ok (some dt) =>
          match tryMatchAt round_no lines i dt.1 dt.2 with
          | none => extractLoop round_no lines fuel (i + 1)
          | some (m, next) =>
            match extractLoop round_no lines fuel next with
            | .error e => .error e
            | .ok rest => .ok (m :: rest)
      else extractLoop round_no lines fuel (i + 1)

/-- Identity key used by the post-extraction dedupe:
(round, dateEvent, strTime, home, away). -/
def dkey (m : Match) : String × String × String × String × String :=
  (m.round, m.dateEvent, m.strTime, m.home, m.away)

/-- The dedupe at the end of extract_matches_from_round: walk the
parsed list with a seen-set of keys, keeping the first record of each
key. -/
def dedupeAux (seen : List (String × String × String × String × String)) :
    List Match → List Match
  | [] => []
  | m :: rest =>
    if dkey m ∈ seen then dedupeAux seen rest
    else m :: dedupeAux (dkey m :: seen) rest

/-- extract_matches_from_round, from the text lines of the fetched
round page. -/
def extract_matches_from_round (round_no : Nat) (lines : List String) :
    Except String (List Match) :=
  (extractLoop round_no lines (lines.length + 1) 0).map (dedupeAux [])

/-! ## parse_standings_from_lpf2 -/

/-- One parsed standings row (the dict built by parse_row_text). -/
structure Row where
  position : Nat
  team : String
  played : Int
  win : Int
  draw : Int
  loss : Int
  gf : Option Int
  ga : Option Int
  gd : Option Int
  points : Int
deriving DecidableEq

/-- re.sub of whitespace runs by a single space. -/
def collapseWsAux (inRun : Bool) : List Char → List Char
  | [] => []
  | c :: rest =>
    if isPySpace c then
      if inRun then collapseWsAux true rest
      else ' ' :: collapseWsAux true rest
    else c :: collapseWsAux false rest

def collapseWs (cs : List Char) : List Char :=
  collapseWsAux false cs

/-- str.strip on a character list. -/
def pyStripL (cs : List Char) : List Char :=
  ((cs.dropWhile isPySpace).reverse.dropWhile isPySpace).reverse

/-- All the signed integer tokens of the line, in order: the findall of
an optional minus followed by a maximal digit run (a minus with no
digit after it matches nothing).  The fuel only makes the recursion
structural; any fuel above the length is enough since every step
consumes at least one character. -/
def intToksF : Nat → List Char → List Int
  | 0, _ => []
  | _ + 1, [] => []
  | fuel + 1, c :: rest =>
    if c = '-' then
      if (match rest with | d :: _ => d.isDigit | [] => false) then
        let (ds, r) := rest.span Char.isDigit
        (-(digitsVal ds : Int)) :: intToksF fuel r
      else intToksF fuel rest
    else if c.isDigit then
      let (ds, r) := (c :: rest).span Char.isDigit
      (digitsVal ds : Int) :: intToksF fuel r
    else intToksF fuel rest

def findIntTokens (cs : List Char) : List Int :=
  intToksF (cs.length + 1) cs

/-- Match of one or two digits with a word boundary on each side, at
the head of the list (boundary before is the callers responsibility):
the greedy two-digit take is kept only if the next character is not a
word character, and the one-digit fallback likewise — a digit run of
three or more characters therefore matches nowhere inside. -/
def wbNumAt : List Char → Option Nat
  | [] => none
  | d1 :: rest =>
    if d1.isDigit then
      match rest with
      | [] => some (d1.toNat - 48)
      | d2 :: rest2 =>
        if d2.isDigit then
          match rest2 with
          | [] => some (10 * (d1.toNat - 48) + (d2.toNat - 48))
          | c3 :: _ =>
            if isWordChar c3 then none
            else some (10 * (d1.toNat - 48) + (d2.toNat - 48))
        else if isWordChar d2 then none
        else some (d1.toNat - 48)
    else none

/-- Search for the first word-bounded one-or-two-digit number,
returning its character index and value; prevWord says whether the
character before the current position is a word character. -/
def wbNumSearch (prevWord : Bool) (idx : Nat) : List Char → Option (Nat × Nat)
  | [] => none
  | c :: rest =>
    match (if prevWord then none else (wbNumAt (c :: rest)).map (fun v => (idx, v))) with
    | some hit => some hit
    | none => wbNumSearch (isWordChar c) (idx + 1) rest

/-- Tail of the goals pattern after the first captured number: optional
spaces, a minus, optional spaces, then one or two digits (greedy). -/
def goalsTail (gf : Nat) (cs : List Char) : Option (Nat × Nat) :=
  match cs.dropWhile isPySpace with
  | c :: cs2 =>
    if c = '-' then
      match cs2.dropWhile isPySpace with
      | e1 :: r =>
        if e1.isDigit then
          match r with
          | e2 :: _ =>
            if e2.isDigit then some (gf, 10 * (e1.toNat - 48) + (e2.toNat - 48))
            else some (gf, e1.toNat - 48)
          | [] => some (gf, e1.toNat - 48)
        else none
      | [] => none
    else none
  | [] => none

/-- Attempt of the goals pattern at the head of the list: a greedy one
or two digit capture (two digits tried first, one digit on failure of
the rest of the pattern), spaces, minus, spaces, one or two digits. -/
def goalsAt : List Char → Option (Nat × Nat)
  | [] => none
  | d1 :: rest =>
    if d1.isDigit then
      match rest with
      | d2 :: rest2 =>
        if d2.isDigit then
          match goalsTail (10 * (d1.toNat - 48) + (d2.toNat - 48)) rest2 with
          | some p => some p
          | none => goalsTail (d1.toNat - 48) rest
        else goalsTail (d1.toNat - 48) rest
      | [] => none
    else none

/-- re.search of the goals pattern: first matching position wins. -/
def searchGoals : List Char → Option (Nat × Nat)
  | [] => none
  | c :: rest =>
    match goalsAt (c :: rest) with
    | some p => some p
    | none => searchGoals rest

/-- Last element of a nonempty list (int(nums[-1])). -/
def lastD (v : Int) : List Int → Int
  | [] => v
  | x :: xs => lastD x xs

/-- parse_row_text: collapse whitespace and strip; read the leading
one-or-two-digit position; skip spaces; find the first word-bounded
number — everything before it is the team name, everything from it on
holds the numeric columns: played, win, draw, loss from the first four
integer tokens, points from the last one, and the goals from the first
goals-pattern match anywhere in the text after the position. -/
def parse_row_text (txt : String) : Option Row :=
  let cs := pyStripL (collapseWs txt.data)
  match cs with
  | [] => none
  | c :: _ =>
    if c.isDigit then
      let posDigits := (cs.span Char.isDigit).1.take 2
      let pos := digitsVal posDigits
      let rest := (cs.drop posDigits.length).dropWhile isPySpace
      match wbNumSearch false 0 rest with
      | none => none
      | some (start, _) =>
        let team : String := ⟨pyStripL (rest.take start)⟩
        let nums := findIntTokens (rest.drop start)
        match nums with
        | n0 :: n1 :: n2 :: n3 :: n4 :: more =>
          let played := n0
          let win := n1
          let draw := n2
          let loss := n3
          let points := lastD n4 more
          let goals := searchGoals rest
          let gf : Option Int := goals.map (fun g => (g.1 : Int))
          let ga : Option Int := goals.map (fun g => (g.2 : Int))
          let gd : Option Int := goals.map (fun g => (g.1 : Int) - (g.2 : Int))
          if team = "" then none
          else some { position := pos, team := team, played := played,
                      win := win, draw := draw, loss := loss,
                      gf := gf, ga := ga, gd := gd, points := points }
        | _ => none
    else none

/-- Stable insertion into a list sorted by the strict order lt: the new
element goes before the first resident it is not strictly greater
than. -/
def insSorted (lt : α → α → Bool) (x : α) : List α → List α
  | [] => [x]
  | y :: ys => if lt y x then y :: insSorted lt x ys else x :: y :: ys

/-- Stable sort by the strict order lt; for a strict weak order this is
the unique stable order, hence equal to what Python list.sort
produces for the same key. -/
def sortStable (lt : α → α → Bool) : List α → List α
  | [] => []
  | x :: xs => insSorted lt x (sortStable lt xs)

/-- MIN_TEAMS completeness reference value of the standings source. -/
def MIN_TEAMS : Nat := 12

/-- The table branch of parse_standings_from_lpf2, from the row texts
of the matched table: parse each row, keep rows with a team name, sort
ascending by the source-asserted position, and report lpf2_ok only
when at least MIN_TEAMS rows survived. -/
def parse_standings_from_lpf2_rows (rowTexts : List String) : List Row × String :=
  let standings := (rowTexts.filterMap parse_row_text).filter (fun s => s.team ≠ "")
  let sorted := sortStable (fun a b => decide (a.position < b.position)) standings
  if MIN_TEAMS ≤ sorted.length then (sorted, "lpf2_ok")
  else (sorted, "lpf2_incomplete:" ++ toString sorted.length)

/-! ## parse_current_round -/

/-- Attempt of the first current-round pattern at the head of the list
(case-insensitive): Clasament, spaces, SUPERLIGA, optional spaces, a
minus, optional spaces, Etapa, spaces, a maximal nonempty digit run. -/
def p1At (cs : List Char) : Option Nat :=
  match matchCI "clasament".data cs with
  | none => none
  | some r1 =>
    let (sp1, r2) := r1.span isPySpace
    if sp1.length = 0 then none else
    match matchCI "superliga".data r2 with
    | none => none
    | some r3 =>
      match r3.dropWhile isPySpace with
      | '-' :: r5 =>
        match matchCI "etapa".data (r5.dropWhile isPySpace) with
        | none => none
        | some r7 =>
          let (sp2, r8) := r7.span isPySpace
          if sp2.length = 0 then none else
          let (ds, _) := r8.span Char.isDigit
          if ds.length = 0 then none else some (digitsVal ds)
      | _ => none

/-- re.search of the first pattern: try each start position. -/
def searchP1 : List Char → Option Nat
  | [] => none
  | c :: rest =>
    match p1At (c :: rest) with
    | some n => some n
    | none => searchP1 rest

/-- Attempt of the fallback pattern at the head of the list: the word
Etapa (case-insensitive, the word boundary before it being the callers
responsibility), spaces, then one or two digits with a trailing word
boundary. -/
def p2At (cs : List Char) : Option Nat :=
  match matchCI "etapa".data cs with
  | none => none
  | some r1 =>
    let (sp, r2) := r1.span isPySpace
    if sp.length = 0 then none else wbNumAt r2

/-- re.search of the fallback pattern, tracking the word boundary. -/
def searchP2 (prevWord : Bool) : List Char → Option Nat
  | [] => none
  | c :: rest =>
    match (if prevWord then none else p2At (c :: rest)) with
    | some n => some n
    | none => searchP2 (isWordChar c) rest

/-- parse_current_round: the first line matching the Clasament
SUPERLIGA - Etapa N pattern wins; otherwise the first line containing
the word Etapa followed by a one-or-two-digit number; otherwise round
1. -/
def parse_current_round (lines : List String) : Nat :=
  match lines.findSome? (fun ln => searchP1 ln.data) with
  | some n => n
  | none =>
    match lines.findSome? (fun ln => searchP2 false ln.data) with
    | some n => n
    | none => 1

/-! ## main -/

def PAST_ROUNDS : Nat := 2

def FUTURE_ROUNDS : Nat := 3

def MAX_ROUNDS : Nat := 30

def optNumJson : Option Nat → Json
  | none => .null
  | some n => .num n

def optIntJson : Option Int → Json
  | none => .null
  | some n => .num n

/-- The full normalized dict emitted for one match. -/
def matchToJson (m : Match) : Json :=
  .obj (JsonO.ofList
    [("idEvent", .null),
     ("season", .str SEASON),
     ("round", .str m.round),
     ("dateEvent", .str m.dateEvent),
     ("strTime", .str m.strTime),
     ("kickoff_raw", .str (m.dateEvent ++ "T" ++ m.strTime)),
     ("home", .str m.home),
     ("away", .str m.away),
     ("status", .str m.status),
     ("score", .obj (JsonO.ofList
        [("home", optNumJson m.scoreHome), ("away", optNumJson m.scoreAway)])),
     ("venue", .null),
     ("city", .null),
     ("event", .obj (JsonO.ofList
        [("strEvent", .str (m.home ++ " vs " ++ m.away)),
         ("strLeague", .str "SuperLiga")])),
     ("source", .str "LPF"),
     ("source_league_id", .str "lpf.ro")])

/-- The dict emitted for one standings row. -/
def rowToJson (r : Row) : Json :=
  .obj (JsonO.ofList
    [("position", .num r.position),
     ("team", .str r.team),
     ("played", .num r.played),
     ("win", .num r.win),
     ("draw", .num r.draw),
     ("loss", .num r.loss),
     ("gf", optIntJson r.gf),
     ("ga", optIntJson r.ga),
     ("gd", optIntJson r.gd),
     ("points", .num r.points)])

/-- Strict order of the fixtures sort key
(dateEvent, strTime, home, away), ascending. -/
def fixLt (x y : Match) : Bool :=
  strLt x.dateEvent y.dateEvent ||
  (x.dateEvent = y.dateEvent && (strLt x.strTime y.strTime ||
   (x.strTime = y.strTime && (strLt x.home y.home ||
    (x.home = y.home && strLt x.away y.away)))))

/-- Strict order of the results sort key (dateEvent, strTime). -/
def resKeyLt (x y : Match) : Bool :=
  strLt x.dateEvent y.dateEvent ||
  (x.dateEvent = y.dateEvent && strLt x.strTime y.strTime)

/-- Inputs of one run, at the external boundary: the standings-table
row texts, the liga-1 page text lines, each round page's text lines (or
the exception each fetch raised, by type name), and the wall-clock
timestamp string. -/
structure World where
  lpf2Rows : Except String (List String)
  liga1Lines : Except String (List String)
  roundLines : Nat → Except String (List String)
  nowUtc : String

/-- Outcome of the try-block of main that builds all_matches. -/
inductive MatchesResult where
  | fetchFailed (exc : String) : MatchesResult
  | roundsFailed (cr : Nat) (exc : String) : MatchesResult
  | ok (cr startR endR : Nat) (all : List Match) : MatchesResult

/-- The round loop: extract each round page in ascending order,
concatenating; the first exception aborts the loop. -/
def extractRounds (w : World) : List Nat → Except String (List Match)
  | [] => .ok []
  | r :: rest =>
    match w.roundLines r with
    | .error err => .error err
    | .ok lines =>
      match extract_matches_from_round r lines with
      | .error err => .error err
      | .ok ms =>
        match extractRounds w rest with
        | .error err => .error err
        | .ok more => .ok (ms ++ more)

/-- The try-block of main: fetch the liga-1 page, read the current
round off it, and extract the window of rounds around it.  An exception
before current_round is assigned leaves it None; one inside the round
loop keeps the assigned value (both are reported in meta). -/
def runMatches (w : World) : MatchesResult :=
  match w.liga1Lines with
  | .error e => .fetchFailed e
  | .ok lines =>
    let cr := parse_current_round lines
    let startR := max 1 (cr - PAST_ROUNDS)
    let endR := min MAX_ROUNDS (cr + FUTURE_ROUNDS)
    match extractRounds w (List.range' startR (endR + 1 - startR)) with
    | .error e => .roundsFailed cr e
    | .ok all => .ok cr startR endR all

/-- The fixtures.json value computed from the parsed matches: the
scheduled ones, sorted ascending by (dateEvent, strTime, home, away). -/
def fixturesJsonOf (all : List Match) : Json :=
  .arr (JsonA.ofList
    ((sortStable fixLt (all.filter (fun m => m.status = "scheduled"))).map matchToJson))

/-- The results.json value computed from the parsed matches: the
finished ones, sorted descending by (dateEvent, strTime). -/
def resultsJsonOf (all : List Match) : Json :=
  .arr (JsonA.ofList
    ((sortStable (fun a b => resKeyLt b a)
       (all.filter (fun m => m.status = "finished"))).map matchToJson))

/-- Everything main computes: the final file system, the changed flag,
the meta value of the run and the two per-stage status codes. -/
structure RunResult where
  fs : FS
  changed : Bool
  meta : Json
  matchesStatus : String
  standingsStatus : String

/-- The standings list and status code of the run. -/
def standingsPair (w : World) : List Row × String :=
  match w.lpf2Rows with
  | .error e => ([], "lpf2_fetch_failed:" ++ e)
  | .ok rows => parse_standings_from_lpf2_rows rows

/-- The fixtures value main passes to persistence: the newly computed
one on success, the re-read previous artifact (None when missing or
unreadable) when the try-block raised. -/
def fixturesVal (w : World) (fs0 : FS) : Option Json :=
  match runMatches w with
  | .ok _ _ _ all => some (fixturesJsonOf all)
  | _ => read_existing fs0 fixturesPath

/-- The results value main passes to persistence. -/
def resultsVal (w : World) (fs0 : FS) : Option Json :=
  match runMatches w with
  | .ok _ _ _ all => some (resultsJsonOf all)
  | _ => read_existing fs0 resultsPath

/-- The matches status code of the run. -/
def matchesStatusOf (w : World) : String :=
  match runMatches w with
  | .fetchFailed e => "lpf_failed:" ++ e
  | .roundsFailed _ e => "lpf_failed:" ++ e
  | .ok _ s e _ => "lpf_ok_rounds:" ++ toString s ++ "-" ++ toString e

/-- The current_round value reported in meta (None when the liga-1
fetch raised before it was assigned). -/
def currentRoundOf (w : World) : Option Nat :=
  match runMatches w with
  | .fetchFailed _ => none
  | .roundsFailed cr _ => some cr
  | .ok cr _ _ _ => some cr

/-- The standings value main passes to persistence: the parsed rows,
except that an empty parse falls back to the previous artifact when
that one is a nonempty array. -/
def standingsVal (w : World) (fs0 : FS) : Json :=
  let standings0 := (standingsPair w).1
  let standingsJson0 := Json.arr (JsonA.ofList (standings0.map rowToJson))
  if standings0.isEmpty then
    match read_existing fs0 standingsPath with
    | some (.arr a) => if a = JsonA.nil then standingsJson0 else Json.arr a
    | _ => standingsJson0
  else standingsJson0

/-- The meta document of the run (built before any write happens). -/
def metaVal (w : World) (fs0 : FS) : Json :=
  let countF : Nat := match fixturesVal w fs0 with | some (.arr a) => a.length | _ => 0
  let countR : Nat := match resultsVal w fs0 with | some (.arr a) => a.length | _ => 0
  let countS : Nat := match standingsVal w fs0 with | .arr a => a.length | _ => 0
  Json.obj (JsonO.ofList
    [("competition", .str "SuperLiga (LPF + LPF2)"),
     ("season", .str SEASON),
     ("sources", .obj (JsonO.ofList
        [("matches", .str "lpf.ro"), ("standings", .str "lpf2.ro")])),
     ("generated_utc", .str w.nowUtc),
     ("current_round", match currentRoundOf w with | none => .null | some n => .num n),
     ("status", .obj (JsonO.ofList
        [("matches", .str (matchesStatusOf w)),
         ("standings", .str (standingsPair w).2)])),
     ("counts", .obj (JsonO.ofList
        [("fixtures", .num countF), ("results", .num countR),
         ("standings_rows", .num countS)]))])

/-- The isinstance(x, list) guard in front of each data write: only a
JSON array value is written, anything else leaves the file system
untouched and counts as unchanged. -/
def writeIfList (fs : FS) (path : String) (v : Option Json) : Bool × FS :=
  match v with
  | some (.arr a) => write_json_if_changed fs path (.arr a)
  | _ => (false, fs)

/-- main: resolve standings from lpf2 (keeping the previous artifact
when the new list is empty), build fixtures and results from the round
window (falling back to the previous artifacts when the try-block
raised), write each artifact only on change, and write meta only when
some data artifact changed. -/
def mainRun (w : World) (fs0 : FS) : RunResult :=
  let w1 := writeIfList fs0 fixturesPath (fixturesVal w fs0)
  let w2 := writeIfList w1.2 resultsPath (resultsVal w fs0)
  let w3 := writeIfList w2.2 standingsPath (some (standingsVal w fs0))
  let changed := w1.1 || w2.1 || w3.1
  let fsFinal :=
    if changed then (write_json_if_changed w3.2 metaPath (metaVal w fs0)).2 else w3.2
  { fs := fsFinal, changed := changed, meta := metaVal w fs0,
    matchesStatus := matchesStatusOf w, standingsStatus := (standingsPair w).2 }

/-! ## The computed standings fallback described by the spec

The spec (§4.4, strategy 2) describes a table recomputed from the
finished Events of the season whenever the authoritative lookup names
too few teams.  The definitions below state that computation from the
spec's words; they have no counterpart in the source and exist to be
compared with what the pipeline publishes. -/

/-- Accumulator row of the computed table. -/
structure TableRow where
  team : String
  played : Nat
  win : Nat
  draw : Nat
  loss : Nat
  goalsFor : Nat
  goalsAgainst : Nat
deriving DecidableEq

def TableRow.points (r : TableRow) : Nat :=
  3 * r.win + r.draw

def TableRow.gd (r : TableRow) : Int :=
  (r.goalsFor : Int) - (r.goalsAgainst : Int)

def blankTableRow (t : String) : TableRow :=
  { team := t, played := 0, win := 0, draw := 0, loss := 0,
    goalsFor := 0, goalsAgainst := 0 }

/-- Account one finished match for one team: goals for and against
from that team's side. -/
def addResult (r : TableRow) (gf ga : Nat) : TableRow :=
  { r with played := r.played + 1,
           win := r.win + (if ga < gf then 1 else 0),
           draw := r.draw + (if gf = ga then 1 else 0),
           loss := r.loss + (if gf < ga then 1 else 0),
           goalsFor := r.goalsFor + gf,
           goalsAgainst := r.goalsAgainst + ga }

def updTable (tbl : List TableRow) (team : String) (gf ga : Nat) : List TableRow :=
  if tbl.any (fun r => r.team = team) then
    tbl.map (fun r => if r.team = team then addResult r gf ga else r)
  else tbl ++ [addResult (blankTableRow team) gf ga]

/-- Fold all finished matches (home, away, home goals, away goals)
into a table, both teams accumulated per match. -/
def tableOfMatches (ms : List (String × String × Nat × Nat)) : List TableRow :=
  ms.foldl (fun tbl m => updTable (updTable tbl m.1 m.2.2.1 m.2.2.2) m.2.1 m.2.2.2 m.2.2.1) []

/-- The deterministic tie-break of the spec: points descending, goal
difference descending, goals for descending, team name ascending;
true when x strictly precedes y. -/
def specPrec (x y : TableRow) : Bool :=
  decide (y.points < x.points) ||
  (decide (x.points = y.points) && (decide (y.gd < x.gd) ||
   (decide (x.gd = y.gd) && (decide (y.goalsFor < x.goalsFor) ||
    (decide (x.goalsFor = y.goalsFor) && strLt x.team y.team)))))

/-- Assign 1-based positions to already-ranked rows, in order. -/
def rankRows (i : Nat) : List TableRow → List Row
  | [] => []
  | r :: rest =>
      { position := i + 1, team := r.team, played := (r.played : Int),
        win := (r.win : Int), draw := (r.draw : Int), loss := (r.loss : Int),
        gf := some (r.goalsFor : Int), ga := some (r.goalsAgainst : Int),
        gd := some r.gd, points := (r.points : Int) } :: rankRows (i + 1) rest

/-- The computed-fallback standings of the spec: rank the accumulated
rows by the tie-break order and assign position as the 1-based rank. -/
def spec_computed_standings (ms : List (String × String × Nat × Nat)) : List Row :=
  rankRows 0 (sortStable specPrec (tableOfMatches ms))

/-- The finished events of a parsed match list, as
(home, away, home goals, away goals). -/
def finishedEventsOf (all : List Match) : List (String × String × Nat × Nat) :=
  all.filterMap (fun m =>
    match m.scoreHome, m.scoreAway with
    | some hs, some a_s => some (m.home, m.away, hs, a_s)
    | _, _ => none)

/-! ## Accessors used by theorem statements -/

/-- The Event identity of the spec: the id when present — the pipeline
always emits idEvent null — else (kickoff date+time, home team, away
team). -/
def claimIdent (m : Match) : String × String × String × String :=
  (m.dateEvent, m.strTime, m.home, m.away)

/-- Field lookup in a JSON object (first binding wins). -/
def jsonGet : JsonO → String → Option Json
  | .nil, _ => none
  | .cons k v t, key => if k = key then some v else jsonGet t key

/-- The parsed content of a file, null when missing or unreadable. -/
def readJsonD (fs : FS) (path : String) : Json :=
  match fs.read path with
  | some (.json j) => j
  | _ => .null

/-- The status.matches field of a meta document. -/
def metaMatchesStatus (j : Json) : Option Json :=
  match j with
  | .obj o =>
    match jsonGet o "status" with
    | some (.obj s) => jsonGet s "matches"
    | _ => none
  | _ => none

/-- The position fields of a standings artifact, in artifact order. -/
def standingsPositionsA : JsonA → List Json
  | .nil => []
  | .cons (.obj o) t => ((jsonGet o "position").getD .null) :: standingsPositionsA t
  | .cons _ t => .null :: standingsPositionsA t

def standingsPositions (j : Json) : List Json :=
  match j with
  | .arr a => standingsPositionsA a
  | _ => []

/-- Whether the matches try-block completed without raising. -/
def MatchesResult.isOk : MatchesResult → Bool
  | .ok _ _ _ _ => true
  | _ => false

/-- The exception name of a failed matches try-block. -/
def failExcOf : MatchesResult → Option String
  | .fetchFailed e => some e
  | .roundsFailed _ e => some e
  | .ok _ _ _ _ => none

/-! ## Concrete runs used to settle and witness the claims -/

/-- A finished match as parsed from a round page. -/
def mFin : Match :=
  { round := "1", dateEvent := "2025-08-12", strTime := "18:30:00",
    home := "FCSB", away := "Rapid", status := "finished",
    scoreHome := some 2, scoreAway := some 1 }

/-- The same fixture as parsed from the round-1 page (scheduled). -/
def mSchedR1 : Match :=
  { round := "1", dateEvent := "2025-08-12", strTime := "18:30:00",
    home := "FCSB", away := "Rapid", status := "scheduled",
    scoreHome := none, scoreAway := none }

/-- The same fixture as parsed from the round-2 page. -/
def mSchedR2 : Match :=
  { round := "2", dateEvent := "2025-08-12", strTime := "18:30:00",
    home := "FCSB", away := "Rapid", status := "scheduled",
    scoreHome := none, scoreAway := none }

/-- The text lines of a round page holding one finished match. -/
def linesFin : List String :=
  ["12 aug 2025, 18:30", "FCSB", "2", "Rapid", "1"]

/-- The text lines of a round page holding one scheduled match. -/
def linesSched : List String :=
  ["12 aug 2025, 18:30", "FCSB", "-", "Rapid", "-"]

/-- A run in which every page fetch succeeds and round 1 holds one
finished match. -/
def wSuccessOne : World :=
  { lpf2Rows := .error "E", liga1Lines := .ok ["no round info"],
    roundLines := fun r => if r = 1 then .ok linesFin else .ok [],
    nowUtc := "t" }

/-- A run in which every page parses but no match is found anywhere. -/
def wParsedEmpty : World :=
  { lpf2Rows := .error "E", liga1Lines := .ok ["zzz"],
    roundLines := fun _ => .ok ["zzz"], nowUtc := "t" }

/-- A run in which the round-1 and round-2 pages list the same fixture. -/
def wDupRounds : World :=
  { lpf2Rows := .error "E", liga1Lines := .ok ["zzz"],
    roundLines := fun r => if r ≤ 2 then .ok linesSched else .ok [],
    nowUtc := "t" }

/-- A run in which both sources fail to fetch. -/
def wC5fail : World :=
  { lpf2Rows := .error "X", liga1Lines := .error "ConnectionError",
    roundLines := fun _ => .error "X", nowUtc := "t" }

/-- Five standings rows, below MIN_TEAMS. -/
def rowsFive : List String :=
  ["1 Alpha 30 20 5 5 50-20 65", "2 Beta 30 18 6 6 40-25 60",
   "3 Ceta 30 15 6 9 35-30 51", "4 Delta 30 10 5 15 25-40 35",
   "5 Echo 30 5 5 20 15-45 20"]

/-- The parsed forms of rowsFive. -/
def rowsFiveParsed : List Row :=
  [{ position := 1, team := "Alpha", played := 30, win := 20, draw := 5,
     loss := 5, gf := some 50, ga := some 20, gd := some 30, points := 65 },
   { position := 2, team := "Beta", played := 30, win := 18, draw := 6,
     loss := 6, gf := some 40, ga := some 25, gd := some 15, points := 60 },
   { position := 3, team := "Ceta", played := 30, win := 15, draw := 6,
     loss := 9, gf := some 35, ga := some 30, gd := some 5, points := 51 },
   { position := 4, team := "Delta", played := 30, win := 10, draw := 5,
     loss := 15, gf := some 25, ga := some 40, gd := some (-15), points := 35 },
   { position := 5, team := "Echo", played := 30, win := 5, draw := 5,
     loss := 20, gf := some 15, ga := some 45, gd := some (-30), points := 20 }]

/-- A run with a five-row standings table and one finished match. -/
def wRows5 : World :=
  { lpf2Rows := .ok rowsFive, liga1Lines := .ok ["zzz"],
    roundLines := fun r => if r = 1 then .ok linesFin else .ok [],
    nowUtc := "t" }

/-- A run whose standings table asserts the same position twice. -/
def wDupPos : World :=
  { lpf2Rows := .ok ["1 Alpha 10 5 3 2 15-8 18", "1 Beta 10 5 3 2 15-8 18"],
    liga1Lines := .error "E", roundLines := fun _ => .error "E", nowUtc := "t" }

/-- A meta document left by an earlier successful run. -/
def oldMetaC5 : Json :=
  Json.obj (JsonO.ofList
    [("status", Json.obj (JsonO.ofList
       [("matches", .str "lpf_ok_rounds:1-6"), ("standings", .str "lpf2_ok")]))])

/-- The file system before the wC5fail run: all four artifacts
present and consistent. -/
def fsC5 : FS :=
  [(fixturesPath, FileData.json (.arr (.cons (matchToJson mFin) .nil))),
   (resultsPath, FileData.json (.arr .nil)),
   (standingsPath, FileData.json (.arr (.cons (rowToJson
     { position := 1, team := "Alpha", played := 10, win := 5, draw := 3,
       loss := 2, gf := some 15, ga := some 8, gd := some 7, points := 18 }) .nil))),
   (metaPath, FileData.json oldMetaC5)]

/-- The file system before the wParsedEmpty run: a nonempty
previously-published fixtures artifact. -/
def fsC1 : FS :=
  [(fixturesPath, FileData.json (.arr (.cons (matchToJson mFin) .nil)))]

/-! # Theorems -/

/-! ## File system and persistence lemmas -/

theorem FS.read_set_self (fs : FS) (p : String) (d : FileData) :
    (fs.set p d).read p = some d := by
  simp [FS.set, FS.read, List.find?]

theorem FS.read_set_ne (fs : FS) (p q : String) (d : FileData) (h : q ≠ p) :
    (fs.set p d).read q = fs.read q := by
  simp only [FS.set, FS.read, List.find?]
  have : ¬ (p = q) := fun e => h e.symm
  simp [this]

theorem write_preserves (fs : FS) (p q : String) (v : Json) (h : q ≠ p) :
    ((write_json_if_changed fs p v).2).read q = fs.read q := by
  unfold write_json_if_changed
  cases hr : fs.read p with
  | none => simp [FS.read_set_ne _ _ _ _ h]
  | some d =>
    cases d with
    | corrupt => simp [FS.read_set_ne _ _ _ _ h]
    | json old =>
      by_cases hc : canon old = canon v <;>
        simp [hc, FS.read_set_ne _ _ _ _ h]

theorem write_false_eq (fs : FS) (p : String) (v : Json)
    (h : (write_json_if_changed fs p v).1 = false) :
    (write_json_if_changed fs p v).2 = fs := by
  unfold write_json_if_changed at *
  cases hr : fs.read p with
  | none => simp [hr] at h
  | some d =>
    cases d with
    | corrupt => simp [hr] at h
    | json old =>
      by_cases hc : canon old = canon v
      · simp [hr, hc]
      · simp [hr, hc] at h

theorem write_readsCanon (fs : FS) (p : String) (v : Json) :
    ∃ j, ((write_json_if_changed fs p v).2).read p = some (.json j) ∧
      canon j = canon v := by
  unfold write_json_if_changed
  cases hr : fs.read p with
  | none => exact ⟨v, by simp [FS.read_set_self], rfl⟩
  | some d =>
    cases d with
    | corrupt => exact ⟨v, by simp [FS.read_set_self], rfl⟩
    | json old =>
      by_cases hc : canon old = canon v
      · exact ⟨old, by simp [hc, hr], hc⟩
      · exact ⟨v, by simp [hc, FS.read_set_self], rfl⟩

theorem write_same_value (fs : FS) (p : String) (j : Json)
    (h : fs.read p = some (.json j)) :
    write_json_if_changed fs p j = (false, fs) := by
  unfold write_json_if_changed
  simp [h]

theorem writeIfList_false_eq (fs : FS) (p : String) (v : Option Json)
    (h : (writeIfList fs p v).1 = false) :
    (writeIfList fs p v).2 = fs := by
  unfold writeIfList at *
  match v with
  | none => rfl
  | some .null => rfl
  | some (.str _) => rfl
  | some (.num _) => rfl
  | some (.obj _) => rfl
  | some (.arr a) => exact write_false_eq _ _ _ h

theorem writeIfList_preserves (fs : FS) (p q : String) (v : Option Json) (h : q ≠ p) :
    ((writeIfList fs p v).2).read q = fs.read q := by
  unfold writeIfList
  match v with
  | none => rfl
  | some .null => rfl
  | some (.str _) => rfl
  | some (.num _) => rfl
  | some (.obj _) => rfl
  | some (.arr a) => exact write_preserves _ _ _ _ h

theorem writeIfList_read_existing (fs : FS) (p : String) :
    writeIfList fs p (read_existing fs p) = (false, fs) := by
  unfold writeIfList read_existing
  cases hr : fs.read p with
  | none => rfl
  | some d =>
    cases d with
    | corrupt => rfl
    | json old =>
      cases old with
      | arr a => exact write_same_value _ _ _ hr
      | null => rfl
      | str s => rfl
      | num n => rfl
      | obj o => rfl

/-! ## C6: idempotent persistence -/

/-- C6: for every starting state, path and pair of logically equal
values (equal canonical serializations, which covers reordered object
keys), calling write_json_if_changed twice performs at most one write —
the second call returns wasWritten=false and leaves the file system of
the first call untouched — and exactly one write when no file existed
at the path beforehand (the first call then returns wasWritten=true). -/
theorem c6_write_idempotent (fs : FS) (path : String) (v1 v2 : Json)
    (h : canon v1 = canon v2) :
    (write_json_if_changed (write_json_if_changed fs path v1).2 path v2).1 = false ∧
    (write_json_if_changed (write_json_if_changed fs path v1).2 path v2).2 =
      (write_json_if_changed fs path v1).2 ∧
    (fs.read path = none → (write_json_if_changed fs path v1).1 = true) := by
  cases hr : fs.read path with
  | none =>
    unfold write_json_if_changed
    simp [hr, FS.read_set_self, h]
  | some d =>
    cases d with
    | corrupt =>
      unfold write_json_if_changed
      simp [hr, FS.read_set_self, h]
    | json old =>
      by_cases hc : canon old = canon v1
      · unfold write_json_if_changed
        simp [hr, hc, hc.trans h, h]
      · have hc2 : ¬ (canon old = canon v2) := fun e => hc (e.trans h.symm)
        unfold write_json_if_changed
        simp [hr, hc, hc2, FS.read_set_self, h]

theorem c6_witness :
    (write_json_if_changed
        (write_json_if_changed [] "p"
          (Json.obj (JsonO.ofList [("a", .num 1), ("b", .num 2)]))).2
        "p" (Json.obj (JsonO.ofList [("b", .num 2), ("a", .num 1)]))).1 = false ∧
    (write_json_if_changed
        (write_json_if_changed [] "p"
          (Json.obj (JsonO.ofList [("a", .num 1), ("b", .num 2)]))).2
        "p" (Json.obj (JsonO.ofList [("b", .num 2), ("a", .num 1)]))).2 =
      (write_json_if_changed [] "p"
          (Json.obj (JsonO.ofList [("a", .num 1), ("b", .num 2)]))).2 ∧
    (FS.read [] "p" = none →
      (write_json_if_changed [] "p"
          (Json.obj (JsonO.ofList [("a", .num 1), ("b", .num 2)]))).1 = true) :=
  c6_write_idempotent [] "p" _ _ (by rfl)

/-! ## C10: a corrupt artifact never suppresses a write -/

/-- C10: when the file at the path exists but does not read back as
JSON, write_json_if_changed skips the comparison, writes the new value
unconditionally, and returns true. -/
theorem c10_corrupt_overwritten (fs : FS) (path : String) (v : Json)
    (h : fs.read path = some .corrupt) :
    write_json_if_changed fs path v = (true, fs.set path (.json v)) := by
  unfold write_json_if_changed
  simp [h]

theorem c10_witness :
    write_json_if_changed [("p", FileData.corrupt)] "p" (Json.num 1) =
      (true, FS.set [("p", FileData.corrupt)] "p" (.json (.num 1))) :=
  c10_corrupt_overwritten _ _ _ (by rfl)

theorem char_digit_bound (c : Char) (h : c.isDigit = true) : c.toNat - 48 < 10 := by
  unfold Char.isDigit at h
  simp only [Bool.and_eq_true, decide_eq_true_eq] at h
  obtain ⟨h1, h2⟩ := h
  have a1 : (48 : UInt32).toNat ≤ c.val.toNat := h1
  have a2 : c.val.toNat ≤ (57 : UInt32).toNat := h2
  have e : c.toNat = c.val.toNat := rfl
  have b1 : (48 : UInt32).toNat = 48 := rfl
  have b2 : (57 : UInt32).toNat = 57 := rfl
  rw [e]
  omega

theorem digitsVal_lt_100 (ds : List Char) (hlen : ds.length ≤ 2)
    (hd : ∀ c ∈ ds, c.isDigit = true) : digitsVal ds < 100 := by
  match ds with
  | [] => simp [digitsVal]
  | [a] =>
    have ha := char_digit_bound a (hd a (by simp))
    simp [digitsVal, List.foldl]
    omega
  | [a, b] =>
    have ha := char_digit_bound a (hd a (by simp))
    have hb := char_digit_bound b (hd b (by simp))
    simp [digitsVal, List.foldl]
    omega
  | _ :: _ :: _ :: _ => simp at hlen

theorem score_token_val_lt (ln : String) (h : is_score_token ln = true)
    (hne : ¬ (pyStrip ln = "-")) : pyIntOfDigits (pyStrip ln) < 100 := by
  unfold is_score_token at h
  simp only [Bool.or_eq_true, decide_eq_true_eq, Bool.and_eq_true] at h
  cases h with
  | inl h => exact absurd h hne
  | inr h =>
    obtain ⟨⟨g1, g2⟩, g3⟩ := h
    unfold pyIntOfDigits
    apply digitsVal_lt_100 _ g2
    intro c hc
    exact List.all_eq_true.mp g3 c hc

theorem scanIdx_stops (cont : String → Bool) (lines : List String) :
    ∀ (fuel j : Nat), lines.length ≤ fuel + j →
      lines[(scanIdx cont lines fuel j)]? = none ∨
      ∃ l, lines[(scanIdx cont lines fuel j)]? = some l ∧ cont l = false := by
  intro fuel
  induction fuel with
  | zero =>
    intro j hj
    left
    unfold scanIdx
    exact List.getElem?_eq_none (by omega)
  | succ fuel ih =>
    intro j hj
    unfold scanIdx
    cases hg : lines.get? j with
    | none =>
      left
      simp only [hg]
      simpa using hg
    | some l =>
      cases hcl : cont l with
      | true =>
        simp only [hg, hcl, if_true]
        exact ih (j + 1) (by omega)
      | false =>
        right
        exact ⟨l, by simp only [hg, hcl]; simpa using hg, hcl⟩

theorem tryMatchAt_fields (r : Nat) (lines : List String) (i : Nat) (d t : String)
    (m : Match) (nxt : Nat) (h : tryMatchAt r lines i d t = some (m, nxt)) :
    m.round = toString r ∧ m.dateEvent = d ∧ m.strTime = t ∧
    m.status = (if m.scoreHome.isSome && m.scoreAway.isSome then "finished" else "scheduled") ∧
    (∀ v, m.scoreHome = some v → v < 100) ∧
    (∀ v, m.scoreAway = some v → v < 100) := by
  simp only [tryMatchAt, List.get?_eq_getElem?] at h
  set j := scanIdx (fun l => is_noise_line l || is_score_token l) lines lines.length (i + 1) with hj
  cases hgj : lines[j]? with
  | none => simp [hgj] at h
  | some lj =>
  simp only [hgj] at h
  cases hteam1 : is_team_line lj with
  | false => simp [hteam1] at h
  | true =>
  simp only [hteam1, if_true] at h
  set k := scanIdx (fun l => !is_score_token l) lines lines.length (j + 1) with hk
  cases hgk : lines[k]? with
  | none => simp [hgk] at h
  | some lk =>
  simp only [hgk] at h
  set a := scanIdx (fun l => is_noise_line l || is_score_token l || is_datetime_line l)
    lines lines.length (k + 1) with ha
  cases hga : lines[a]? with
  | none => simp [hga] at h
  | some la =>
  simp only [hga] at h
  cases hteam2 : is_team_line la with
  | false => simp [hteam2] at h
  | true =>
  simp only [hteam2, if_true] at h
  set b := scanIdx (fun l => !is_score_token l) lines lines.length (a + 1) with hb
  cases hgb : lines[b]? with
  | none => simp [hgb] at h
  | some lb =>
  simp only [hgb] at h
  have hstk : is_score_token lk = true := by
    rcases scanIdx_stops (fun l => !is_score_token l) lines lines.length (j + 1)
      (by omega) with hnone | ⟨l2, hsome, hcond⟩
    · rw [← hk] at hnone; rw [hnone] at hgk; cases hgk
    · rw [← hk] at hsome
      rw [hsome] at hgk
      cases hgk
      cases hst : is_score_token lk with
      | false => rw [hst] at hcond; simp at hcond
      | true => rfl
  have hstb : is_score_token lb = true := by
    rcases scanIdx_stops (fun l => !is_score_token l) lines lines.length (a + 1)
      (by omega) with hnone | ⟨l2, hsome, hcond⟩
    · rw [← hb] at hnone; rw [hnone] at hgb; cases hgb
    · rw [← hb] at hsome
      rw [hsome] at hgb
      cases hgb
      cases hst : is_score_token lb with
      | false => rw [hst] at hcond; simp at hcond
      | true => rfl
  simp only [Option.some.injEq, Prod.mk.injEq] at h
  obtain ⟨hm, -⟩ := h
  subst hm
  refine ⟨rfl, rfl, rfl, ?_, ?_, ?_⟩
  · by_cases hhs : pyStrip lk = "-" <;> by_cases has2 : pyStrip lb = "-" <;>
      simp [hhs, has2]
  · intro v hv
    by_cases hhs : pyStrip lk = "-"
    · simp [hhs] at hv
    · simp only [hhs, if_false] at hv
      simp at hv
      rw [← hv]
      exact score_token_val_lt lk hstk hhs
  · intro v hv
    by_cases has2 : pyStrip lb = "-"
    · simp [has2] at hv
    · simp only [has2, if_false] at hv
      simp at hv
      rw [← hv]
      exact score_token_val_lt lb hstb has2

theorem extractLoop_src (r : Nat) (lines : List String) :
    ∀ (fuel i : Nat) (out : List Match), extractLoop r lines fuel i = .ok out →
      ∀ m ∈ out, ∃ i2 d t nxt, tryMatchAt r lines i2 d t = some (m, nxt) := by
  intro fuel
  induction fuel with
  | zero =>
    intro i out h m hm
    unfold extractLoop at h
    cases h
    simp at hm
  | succ fuel ih =>
    intro i out h m hm
    unfold extractLoop at h
    cases hg : lines.get? i with
    | none =>
      simp only [hg] at h
      cases h
      simp at hm
    | some ln =>
      simp only [hg] at h
      by_cases hdt : is_datetime_line ln = true
      · simp only [hdt, if_true] at h
        cases hp : parse_datetime_ro ln with
        | error e =>
          simp only [hp] at h
          exact Except.noConfusion h
        | ok odt =>
          simp only [hp] at h
          cases odt with
          | none => exact ih (i + 1) out h m hm
          | some dt =>
            cases htm : tryMatchAt r lines i dt.1 dt.2 with
            | none =>
              simp only [htm] at h
              exact ih (i + 1) out h m hm
            | some pr =>
              obtain ⟨m0, nxt0⟩ := pr
              simp only [htm] at h
              cases hrec : extractLoop r lines fuel nxt0 with
              | error e =>
                simp only [hrec] at h
                exact Except.noConfusion h
              | ok rest =>
                simp only [hrec] at h
                cases h
                rcases List.mem_cons.mp hm with hm1 | hm2
                · exact ⟨i, dt.1, dt.2, nxt0, by rw [htm, hm1]⟩
                · exact ih nxt0 rest hrec m hm2
      · simp only [hdt, if_false] at h
        exact ih (i + 1) out h m hm

theorem dedupeAux_subset (l : List Match) :
    ∀ (seen : List (String × String × String × String × String)) (m : Match),
      m ∈ dedupeAux seen l → m ∈ l := by
  induction l with
  | nil => intro seen m hm; simp [dedupeAux] at hm
  | cons x rest ih =>
    intro seen m hm
    unfold dedupeAux at hm
    by_cases hs : dkey x ∈ seen
    · simp only [hs, if_true] at hm
      exact List.mem_cons_of_mem x (ih seen m hm)
    · simp only [hs, if_false] at hm
      rcases List.mem_cons.mp hm with h1 | h2
      · exact h1 ▸ List.mem_cons_self x rest
      · exact List.mem_cons_of_mem x (ih (dkey x :: seen) m h2)

theorem dedupeAux_keys (l : List Match) :
    ∀ (seen : List (String × String × String × String × String)),
      ((dedupeAux seen l).map dkey).Nodup ∧
      ∀ k ∈ (dedupeAux seen l).map dkey, k ∉ seen := by
  induction l with
  | nil => intro seen; simp [dedupeAux]
  | cons x rest ih =>
    intro seen
    unfold dedupeAux
    by_cases hs : dkey x ∈ seen
    · simp only [hs, if_true]
      exact ih seen
    · simp only [hs, if_false]
      obtain ⟨ihn, ihs⟩ := ih (dkey x :: seen)
      constructor
      · simp only [List.map_cons, List.nodup_cons]
        refine ⟨fun hc => ?_, ihn⟩
        exact (ihs _ hc) (List.mem_cons_self _ _)
      · intro k hk
        rcases List.mem_cons.mp hk with h1 | h2
        · exact h1 ▸ hs
        · intro hkseen
          exact (ihs k h2) (List.mem_cons_of_mem _ hkseen)

theorem dedupeAux_find (l : List Match) :
    ∀ (seen : List (String × String × String × String × String))
      (k : String × String × String × String × String), k ∉ seen →
      (dedupeAux seen l).find? (fun m => dkey m == k) =
        l.find? (fun m => dkey m == k) := by
  induction l with
  | nil => intro seen k hk; rfl
  | cons x rest ih =>
    intro seen k hk
    unfold dedupeAux
    by_cases hs : dkey x ∈ seen
    · have hne : (dkey x == k) = false := by
        by_cases he : dkey x = k
        · exact absurd (he ▸ hs) hk
        · simpa using he
      simp only [hs, if_true, List.find?_cons, hne]
      exact ih seen k hk
    · simp only [hs, if_false]
      by_cases he : dkey x = k
      · have hyes : (dkey x == k) = true := by simpa using he
        simp only [List.find?_cons, hyes]
      · have hne : (dkey x == k) = false := by simpa using he
        simp only [List.find?_cons, hne]
        exact ih (dkey x :: seen) k (by
          intro hc
          rcases List.mem_cons.mp hc with h1 | h2
          · exact he h1.symm
          · exact hk h2)

theorem extract_ok_parts (r : Nat) (lines : List String) (out : List Match)
    (h : extract_matches_from_round r lines = .ok out) :
    ∃ raw, extractLoop r lines (lines.length + 1) 0 = .ok raw ∧ out = dedupeAux [] raw := by
  unfold extract_matches_from_round at h
  cases hl : extractLoop r lines (lines.length + 1) 0 with
  | error e =>
    rw [hl] at h
    exact Except.noConfusion h
  | ok raw =>
    rw [hl] at h
    refine ⟨raw, rfl, ?_⟩
    simpa [Except.map] using h.symm

theorem extract_mem_src (r : Nat) (lines : List String) (out : List Match) (m : Match)
    (h : extract_matches_from_round r lines = .ok out) (hm : m ∈ out) :
    ∃ i2 d t nxt, tryMatchAt r lines i2 d t = some (m, nxt) := by
  obtain ⟨raw, hraw, hout⟩ := extract_ok_parts r lines out h
  exact extractLoop_src r lines (lines.length + 1) 0 raw hraw m
    (dedupeAux_subset raw [] m (hout ▸ hm))

/-- C7: for every Event emitted by the round extractor, status is
derived purely from score presence: it equals finished exactly when
both scores are present, and scheduled otherwise; no source-provided
status flag exists in the record. -/
theorem c7_status_derived (r : Nat) (lines : List String) (out : List Match) (m : Match)
    (h1 : extract_matches_from_round r lines = .ok out) (h2 : m ∈ out) :
    m.status = (if m.scoreHome.isSome && m.scoreAway.isSome then "finished" else "scheduled") := by
  obtain ⟨i2, d, t, nxt, htm⟩ := extract_mem_src r lines out m h1 h2
  exact (tryMatchAt_fields r lines i2 d t m nxt htm).2.2.2.1

theorem c7_witness :
    extract_matches_from_round 3 ["12 aug 2025, 18:30", "FCSB", "2", "Rapid", "1"] =
      .ok [{ round := "3", dateEvent := "2025-08-12", strTime := "18:30:00",
             home := "FCSB", away := "Rapid", status := "finished",
             scoreHome := some 2, scoreAway := some 1 }] ∧
    ({ round := "3", dateEvent := "2025-08-12", strTime := "18:30:00",
       home := "FCSB", away := "Rapid", status := "finished",
       scoreHome := some 2, scoreAway := some 1 } : Match).status =
      (if (some 2 : Option Nat).isSome && (some 1 : Option Nat).isSome
       then "finished" else "scheduled") :=
  ⟨rfl, c7_status_derived 3 ["12 aug 2025, 18:30", "FCSB", "2", "Rapid", "1"] _ _ rfl
    (List.mem_singleton.mpr rfl)⟩

/-- C4 (amended): the two score components of an emitted Event are
parsed independently from their own tokens, so an Event may carry one
present and one absent score; such an Event is always scheduled, and
any present score is a non-negative integer below 100 (one or two
digits). -/
theorem c4_scores_independent (r : Nat) (lines : List String) (out : List Match) (m : Match)
    (h1 : extract_matches_from_round r lines = .ok out) (h2 : m ∈ out) :
    ((m.scoreHome = none ∨ m.scoreAway = none) → m.status = "scheduled") ∧
    (∀ v, m.scoreHome = some v → v < 100) ∧
    (∀ v, m.scoreAway = some v → v < 100) := by
  obtain ⟨i2, d, t, nxt, htm⟩ := extract_mem_src r lines out m h1 h2
  obtain ⟨-, -, -, hst, hbh, hba⟩ := tryMatchAt_fields r lines i2 d t m nxt htm
  refine ⟨?_, hbh, hba⟩
  intro hnone
  rw [hst]
  rcases hnone with h | h <;> simp [h]

/-- C4 counterexample: the round page
datetime, FCSB, dash, Rapid, 7 emits an Event whose away score is
present while its home score is absent, refuting both-present-or-
both-absent. -/
theorem c4_counterexample :
    extract_matches_from_round 1 ["12 aug 2025, 18:30", "FCSB", "-", "Rapid", "7"] =
      .ok [{ round := "1", dateEvent := "2025-08-12", strTime := "18:30:00",
             home := "FCSB", away := "Rapid", status := "scheduled",
             scoreHome := none, scoreAway := some 7 }] := rfl

theorem c4_witness :
    (((none : Option Nat) = none ∨ (some 7 : Option Nat) = none) →
      ({ round := "1", dateEvent := "2025-08-12", strTime := "18:30:00",
         home := "FCSB", away := "Rapid", status := "scheduled",
         scoreHome := none, scoreAway := some 7 } : Match).status = "scheduled") ∧
    (∀ v, (none : Option Nat) = some v → v < 100) ∧
    (∀ v, (some 7 : Option Nat) = some v → v < 100) :=
  c4_scores_independent 1 ["12 aug 2025, 18:30", "FCSB", "-", "Rapid", "7"] _ _ rfl
    (List.mem_singleton.mpr rfl)

/-- C3 (amended): the dedupe key of the extractor includes the round
number — within one round no two emitted Events share
(round, kickoff, home, away), and of duplicates the first occurrence
is kept (the first match of any key in the output is the first match
of that key in the raw parse); Events of different rounds are not
deduplicated against each other even when they share
(kickoff, home, away), and id is never assigned (idEvent is null). -/
theorem c3_per_round_dedupe (r : Nat) (lines : List String) (out : List Match)
    (h : extract_matches_from_round r lines = .ok out) :
    ((out.map dkey).Nodup) ∧
    (∀ raw, extractLoop r lines (lines.length + 1) 0 = .ok raw →
      ∀ k, out.find? (fun m => dkey m == k) = raw.find? (fun m => dkey m == k)) := by
  obtain ⟨raw0, hraw0, hout⟩ := extract_ok_parts r lines out h
  constructor
  · exact hout ▸ (dedupeAux_keys raw0 []).1
  · intro raw hraw k
    rw [hraw0] at hraw
    cases hraw
    rw [hout]
    exact dedupeAux_find raw0 [] k (by simp)

theorem mainRun_unchanged (w : World) (fs0 : FS)
    (h : (mainRun w fs0).changed = false) : (mainRun w fs0).fs = fs0 := by
  simp only [mainRun] at h ⊢
  rw [Bool.or_eq_false_iff] at h
  obtain ⟨h12, h3⟩ := h
  rw [Bool.or_eq_false_iff] at h12
  obtain ⟨h1, h2⟩ := h12
  have e1 := writeIfList_false_eq _ _ _ h1
  rw [e1] at h2 h3 ⊢
  have e2 := writeIfList_false_eq _ _ _ h2
  rw [e2] at h3 ⊢
  have e3 := writeIfList_false_eq _ _ _ h3
  rw [e3]
  simp [h1, h2, h3, e1, e2, e3]

theorem mainRun_read_fixtures (w : World) (fs0 : FS) :
    FS.read (mainRun w fs0).fs fixturesPath =
      FS.read (writeIfList fs0 fixturesPath (fixturesVal w fs0)).2 fixturesPath := by
  simp only [mainRun]
  split
  · rw [write_preserves _ _ _ _ (by decide)]
    rw [writeIfList_preserves _ _ _ _ (by decide)]
    rw [writeIfList_preserves _ _ _ _ (by decide)]
  · rw [writeIfList_preserves _ _ _ _ (by decide)]
    rw [writeIfList_preserves _ _ _ _ (by decide)]

theorem mainRun_read_results (w : World) (fs0 : FS) :
    FS.read (mainRun w fs0).fs resultsPath =
      FS.read (writeIfList (writeIfList fs0 fixturesPath (fixturesVal w fs0)).2
        resultsPath (resultsVal w fs0)).2 resultsPath := by
  simp only [mainRun]
  split
  · rw [write_preserves _ _ _ _ (by decide)]
    rw [writeIfList_preserves _ _ _ _ (by decide)]
  · rw [writeIfList_preserves _ _ _ _ (by decide)]

theorem mainRun_read_standings (w : World) (fs0 : FS) :
    FS.read (mainRun w fs0).fs standingsPath =
      FS.read (writeIfList (writeIfList (writeIfList fs0 fixturesPath
        (fixturesVal w fs0)).2 resultsPath (resultsVal w fs0)).2
        standingsPath (some (standingsVal w fs0))).2 standingsPath := by
  simp only [mainRun]
  split
  · rw [write_preserves _ _ _ _ (by decide)]
  · rfl

/-- C8: the meta artifact is written only if at least one data
artifact was changed by the runs writes; when none changed, the
on-disk meta.json (indeed the whole output directory) is left
unchanged. -/
theorem c8_meta_only_when_changed (w : World) (fs0 : FS)
    (h : (mainRun w fs0).changed = false) :
    FS.read (mainRun w fs0).fs metaPath = FS.read fs0 metaPath := by
  rw [mainRun_unchanged w fs0 h]

theorem c8_witness :
    FS.read (mainRun
      { lpf2Rows := .error "E", liga1Lines := .error "E",
        roundLines := fun _ => .error "E", nowUtc := "t" }
      [(standingsPath, FileData.json (.arr .nil))]).fs metaPath =
    FS.read [(standingsPath, FileData.json (.arr .nil))] metaPath :=
  c8_meta_only_when_changed _ _ (by rfl)

/-- C5 (amended): when the match try-block raises on every attempt,
fixtures.json and results.json are byte-identical to their pre-run
state, and the failure code lpf_failed:Exc reaches meta.json only when
some data artifact changed in the same run; otherwise meta.json keeps
its previous content. -/
theorem c5_failure_keeps_artifacts (w : World) (fs0 : FS)
    (h : (runMatches w).isOk = false) :
    FS.read (mainRun w fs0).fs fixturesPath = FS.read fs0 fixturesPath ∧
    FS.read (mainRun w fs0).fs resultsPath = FS.read fs0 resultsPath ∧
    (∃ exc, failExcOf (runMatches w) = some exc ∧
      (mainRun w fs0).matchesStatus = "lpf_failed:" ++ exc) ∧
    ((mainRun w fs0).changed = false →
      FS.read (mainRun w fs0).fs metaPath = FS.read fs0 metaPath) ∧
    ((mainRun w fs0).changed = true →
      ∃ j, FS.read (mainRun w fs0).fs metaPath = some (.json j) ∧
        canon j = canon (mainRun w fs0).meta) := by
  have hfv : fixturesVal w fs0 = read_existing fs0 fixturesPath := by
    unfold fixturesVal
    cases hr : runMatches w with
    | fetchFailed e => rfl
    | roundsFailed cr e => rfl
    | ok cr s e all => rw [hr] at h; simp [MatchesResult.isOk] at h
  have hrv : resultsVal w fs0 = read_existing fs0 resultsPath := by
    unfold resultsVal
    cases hr : runMatches w with
    | fetchFailed e => rfl
    | roundsFailed cr e => rfl
    | ok cr s e all => rw [hr] at h; simp [MatchesResult.isOk] at h
  have hw1 : writeIfList fs0 fixturesPath (fixturesVal w fs0) = (false, fs0) := by
    rw [hfv]; exact writeIfList_read_existing fs0 fixturesPath
  have hw2 : writeIfList fs0 resultsPath (resultsVal w fs0) = (false, fs0) := by
    rw [hrv]; exact writeIfList_read_existing fs0 resultsPath
  have hms : (mainRun w fs0).matchesStatus = matchesStatusOf w := rfl
  refine ⟨?_, ?_, ?_, ?_, ?_⟩
  · rw [mainRun_read_fixtures]
    simp only [hw1]
  · rw [mainRun_read_results]
    simp only [hw1, hw2]
  · cases hr : runMatches w with
    | fetchFailed e =>
      refine ⟨e, rfl, ?_⟩
      rw [hms]
      unfold matchesStatusOf
      rw [hr]
    | roundsFailed cr e =>
      refine ⟨e, rfl, ?_⟩
      rw [hms]
      unfold matchesStatusOf
      rw [hr]
    | ok cr s e all => rw [hr] at h; simp [MatchesResult.isOk] at h
  · intro hch
    rw [mainRun_unchanged w fs0 hch]
  · intro hch
    simp only [mainRun] at hch
    have hfs : (mainRun w fs0).fs =
        (write_json_if_changed (writeIfList (writeIfList (writeIfList fs0 fixturesPath
          (fixturesVal w fs0)).2 resultsPath (resultsVal w fs0)).2 standingsPath
          (some (standingsVal w fs0))).2 metaPath (metaVal w fs0)).2 := by
      simp only [mainRun]
      rw [if_pos hch]
    obtain ⟨j, hj, hc⟩ := write_readsCanon (writeIfList (writeIfList (writeIfList fs0
      fixturesPath (fixturesVal w fs0)).2 resultsPath (resultsVal w fs0)).2 standingsPath
      (some (standingsVal w fs0))).2 metaPath (metaVal w fs0)
    refine ⟨j, ?_, ?_⟩
    · rw [hfs]; exact hj
    · exact hc

/-- C1 (amended): whenever the match pages are fetched and parsed
without raising, the orchestrator publishes the newly parsed fixtures
and results unconditionally — there is no minimum event-count gate —
including empty sets; the previous artifacts are retained only when
the fetch or parse raised. -/
theorem c1_publishes_unconditionally (w : World) (fs0 : FS) (cr s e : Nat)
    (all : List Match) (h : runMatches w = .ok cr s e all) :
    (∃ j, FS.read (mainRun w fs0).fs fixturesPath = some (.json j) ∧
      canon j = canon (fixturesJsonOf all)) ∧
    (∃ j, FS.read (mainRun w fs0).fs resultsPath = some (.json j) ∧
      canon j = canon (resultsJsonOf all)) := by
  have hfv : fixturesVal w fs0 = some (fixturesJsonOf all) := by
    unfold fixturesVal; rw [h]
  have hrv : resultsVal w fs0 = some (resultsJsonOf all) := by
    unfold resultsVal; rw [h]
  constructor
  · rw [mainRun_read_fixtures, hfv]
    obtain ⟨j, hj, hc⟩ := write_readsCanon fs0 fixturesPath (fixturesJsonOf all)
    refine ⟨j, ?_, hc⟩
    have heq : writeIfList fs0 fixturesPath (some (fixturesJsonOf all)) =
        write_json_if_changed fs0 fixturesPath (fixturesJsonOf all) := rfl
    rw [heq]
    exact hj
  · rw [mainRun_read_results, hrv]
    obtain ⟨j, hj, hc⟩ := write_readsCanon
      (writeIfList fs0 fixturesPath (fixturesVal w fs0)).2 resultsPath (resultsJsonOf all)
    refine ⟨j, ?_, hc⟩
    have heq : writeIfList (writeIfList fs0 fixturesPath (fixturesVal w fs0)).2
        resultsPath (some (resultsJsonOf all)) =
        write_json_if_changed (writeIfList fs0 fixturesPath (fixturesVal w fs0)).2
          resultsPath (resultsJsonOf all) := rfl
    rw [heq]
    exact hj

theorem parse_fst (rows : List String) :
    (parse_standings_from_lpf2_rows rows).1 =
      sortStable (fun a b => decide (a.position < b.position))
        ((rows.filterMap parse_row_text).filter (fun s => s.team ≠ "")) := by
  simp only [parse_standings_from_lpf2_rows]
  split <;> rfl

theorem parse_snd_incomplete (rows : List String)
    (h : (parse_standings_from_lpf2_rows rows).1.length < MIN_TEAMS) :
    (parse_standings_from_lpf2_rows rows).2 =
      "lpf2_incomplete:" ++ toString (parse_standings_from_lpf2_rows rows).1.length := by
  have hfst := parse_fst rows
  rw [hfst] at h
  simp only [parse_standings_from_lpf2_rows]
  rw [if_neg (by omega)]

/-- C2 (amended): when the standings lookup yields fewer than
MIN_TEAMS rows, the run records lpf2_incomplete with the row count —
but the partial table itself is still published verbatim whenever it
is nonempty; no table is recomputed from finished Events (the source
has no computed fallback). -/
theorem c2_incomplete_still_published (w : World) (fs0 : FS) (rows : List String)
    (h1 : w.lpf2Rows = .ok rows)
    (h2 : (parse_standings_from_lpf2_rows rows).1.length < MIN_TEAMS) :
    (mainRun w fs0).standingsStatus =
      "lpf2_incomplete:" ++ toString (parse_standings_from_lpf2_rows rows).1.length ∧
    ((parse_standings_from_lpf2_rows rows).1 ≠ [] →
      ∃ j, FS.read (mainRun w fs0).fs standingsPath = some (.json j) ∧
        canon j = canon (Json.arr (JsonA.ofList
          ((parse_standings_from_lpf2_rows rows).1.map rowToJson)))) := by
  have hsp : standingsPair w = parse_standings_from_lpf2_rows rows := by
    unfold standingsPair
    rw [h1]
  have hss : (mainRun w fs0).standingsStatus = (standingsPair w).2 := rfl
  constructor
  · rw [hss, hsp]
    exact parse_snd_incomplete rows h2
  · intro hne
    have hemp : (parse_standings_from_lpf2_rows rows).1.isEmpty = false := by
      cases hl : (parse_standings_from_lpf2_rows rows).1 with
      | nil => exact absurd hl hne
      | cons a t => rfl
    have hsv : standingsVal w fs0 = Json.arr (JsonA.ofList
        ((parse_standings_from_lpf2_rows rows).1.map rowToJson)) := by
      simp only [standingsVal]
      rw [hsp, hemp]
      simp
    rw [mainRun_read_standings, hsv]
    obtain ⟨j, hj, hc⟩ := write_readsCanon
      (writeIfList (writeIfList fs0 fixturesPath (fixturesVal w fs0)).2
        resultsPath (resultsVal w fs0)).2 standingsPath
      (Json.arr (JsonA.ofList ((parse_standings_from_lpf2_rows rows).1.map rowToJson)))
    exact ⟨j, hj, hc⟩

theorem mem_insSorted {α : Type} (lt : α → α → Bool) (x y : α) (l : List α) :
    y ∈ insSorted lt x l ↔ y = x ∨ y ∈ l := by
  induction l with
  | nil => simp [insSorted]
  | cons z zs ih =>
    unfold insSorted
    cases hz : lt z x with
    | true =>
      simp only [hz, if_true, List.mem_cons, ih]
      tauto
    | false =>
      simp only [hz, Bool.false_eq_true, if_false, List.mem_cons, ih]

theorem pairwise_insSorted {α : Type} (key : α → Nat) (x : α) (l : List α)
    (h : l.Pairwise (fun a b => key a ≤ key b)) :
    (insSorted (fun a b => decide (key a < key b)) x l).Pairwise
      (fun a b => key a ≤ key b) := by
  induction l with
  | nil => simp [insSorted]
  | cons y ys ih =>
    rw [List.pairwise_cons] at h
    obtain ⟨hy, hys⟩ := h
    unfold insSorted
    by_cases hlt : key y < key x
    · simp only [decide_eq_true_eq, hlt, if_true]
      rw [List.pairwise_cons]
      refine ⟨?_, ih hys⟩
      intro b hb
      rcases (mem_insSorted _ _ _ _).mp hb with h1 | h2
      · rw [h1]; omega
      · exact hy b h2
    · simp only [decide_eq_true_eq, hlt, if_false]
      rw [List.pairwise_cons]
      constructor
      · intro b hb
        rcases List.mem_cons.mp hb with h1 | h2
        · rw [h1]; omega
        · have := hy b h2
          omega
      · rw [List.pairwise_cons]
        exact ⟨hy, hys⟩

theorem pairwise_sortStable {α : Type} (key : α → Nat) (l : List α) :
    (sortStable (fun a b => decide (key a < key b)) l).Pairwise
      (fun a b => key a ≤ key b) := by
  induction l with
  | nil => simp [sortStable]
  | cons x xs ih =>
    unfold sortStable
    exact pairwise_insSorted key x _ ih

/-- C9 (amended): a published standings artifact is sorted ascending
by the position field; positions are taken verbatim from the source
and are not validated, so they need not be unique or contiguous. -/
theorem c9_sorted_by_position (rows : List String) :
    ((parse_standings_from_lpf2_rows rows).1).Pairwise
      (fun a b => a.position ≤ b.position) := by
  rw [parse_fst rows]
  exact pairwise_sortStable (fun r : Row => r.position) _
theorem c1_witness :
    (∃ j, FS.read (mainRun wSuccessOne []).fs fixturesPath = some (.json j) ∧
      canon j = canon (fixturesJsonOf [mFin])) ∧
    (∃ j, FS.read (mainRun wSuccessOne []).fs resultsPath = some (.json j) ∧
      canon j = canon (resultsJsonOf [mFin])) :=
  c1_publishes_unconditionally wSuccessOne [] 1 1 4 [mFin] (by rfl)

/-- C1 counterexample: a run whose pages parse to zero matches
overwrites a nonempty previously-published fixtures.json with an empty
array, regressing the artifact to empty data. -/
theorem c1_counterexample :
    FS.read fsC1 fixturesPath = some (.json (.arr (.cons (matchToJson mFin) .nil))) ∧
    (mainRun wParsedEmpty fsC1).matchesStatus = "lpf_ok_rounds:1-4" ∧
    FS.read (mainRun wParsedEmpty fsC1).fs fixturesPath = some (.json (.arr .nil)) ∧
    Json.arr (.cons (matchToJson mFin) .nil) ≠ Json.arr .nil :=
  ⟨rfl, rfl, rfl, by decide⟩

theorem c2_witness :
    (mainRun wRows5 []).standingsStatus =
      "lpf2_incomplete:" ++ toString (parse_standings_from_lpf2_rows rowsFive).1.length ∧
    ((parse_standings_from_lpf2_rows rowsFive).1 ≠ [] →
      ∃ j, FS.read (mainRun wRows5 []).fs standingsPath = some (.json j) ∧
        canon j = canon (Json.arr (JsonA.ofList
          ((parse_standings_from_lpf2_rows rowsFive).1.map rowToJson)))) :=
  c2_incomplete_still_published wRows5 [] rowsFive (by rfl)
    (by have h : (parse_standings_from_lpf2_rows rowsFive).1.length = 5 := rfl
        rw [h]
        decide)

/-- C2 counterexample: with a five-row lookup and a finished match
available, the pipeline publishes the five lookup rows themselves,
which differ from the computed-fallback table the spec describes. -/
theorem c2_counterexample :
    (mainRun wRows5 []).standingsStatus = "lpf2_incomplete:5" ∧
    runMatches wRows5 = .ok 1 1 4 [mFin] ∧
    FS.read (mainRun wRows5 []).fs standingsPath =
      some (.json (Json.arr (JsonA.ofList (rowsFiveParsed.map rowToJson)))) ∧
    Json.arr (JsonA.ofList (rowsFiveParsed.map rowToJson)) ≠
      Json.arr (JsonA.ofList
        ((spec_computed_standings (finishedEventsOf [mFin])).map rowToJson)) :=
  ⟨rfl, rfl, rfl, by decide⟩

theorem c3_witness :
    (([mSchedR1].map dkey).Nodup) ∧
    ([mSchedR1].find? (fun m => dkey m == dkey mSchedR1) =
      [mSchedR1, mSchedR1].find? (fun m => dkey m == dkey mSchedR1)) := by
  have h := c3_per_round_dedupe 1 (linesSched ++ linesSched) [mSchedR1] rfl
  exact ⟨h.1, h.2 [mSchedR1, mSchedR1] rfl (dkey mSchedR1)⟩

/-- C3 counterexample: when the round-1 and round-2 pages list the
same fixture, the published fixtures artifact holds two distinct
Events with the same (kickoff, home, away) identity and no id. -/
theorem c3_counterexample :
    runMatches wDupRounds = .ok 1 1 4 [mSchedR1, mSchedR2] ∧
    claimIdent mSchedR1 = claimIdent mSchedR2 ∧
    mSchedR1 ≠ mSchedR2 ∧
    FS.read (mainRun wDupRounds []).fs fixturesPath =
      some (.json (.arr (.cons (matchToJson mSchedR1)
        (.cons (matchToJson mSchedR2) .nil)))) :=
  ⟨rfl, rfl, by decide, rfl⟩

theorem c5_witness :
    FS.read (mainRun wC5fail fsC5).fs fixturesPath = FS.read fsC5 fixturesPath ∧
    FS.read (mainRun wC5fail fsC5).fs resultsPath = FS.read fsC5 resultsPath ∧
    (∃ exc, failExcOf (runMatches wC5fail) = some exc ∧
      (mainRun wC5fail fsC5).matchesStatus = "lpf_failed:" ++ exc) ∧
    ((mainRun wC5fail fsC5).changed = false →
      FS.read (mainRun wC5fail fsC5).fs metaPath = FS.read fsC5 metaPath) ∧
    ((mainRun wC5fail fsC5).changed = true →
      ∃ j, FS.read (mainRun wC5fail fsC5).fs metaPath = some (.json j) ∧
        canon j = canon (mainRun wC5fail fsC5).meta) :=
  c5_failure_keeps_artifacts wC5fail fsC5 (by rfl)

/-- C5 counterexample: in a run where every fetch fails and no data
artifact changes, the on-disk meta.json still holds the previous runs
status and does not record the failure code. -/
theorem c5_counterexample :
    (mainRun wC5fail fsC5).matchesStatus = "lpf_failed:ConnectionError" ∧
    FS.read (mainRun wC5fail fsC5).fs metaPath = some (.json oldMetaC5) ∧
    metaMatchesStatus oldMetaC5 = some (.str "lpf_ok_rounds:1-6") ∧
    ("lpf_ok_rounds:1-6" : String) ≠ "lpf_failed:ConnectionError" :=
  ⟨rfl, rfl, rfl, by decide⟩

/-- C9 counterexample: a source table asserting position 1 twice is
published as-is, with duplicate (hence non-contiguous) positions. -/
theorem c9_counterexample :
    standingsPositions (readJsonD (mainRun wDupPos []).fs standingsPath) =
      [Json.num 1, Json.num 1] ∧
    ¬ (standingsPositions (readJsonD (mainRun wDupPos []).fs standingsPath)).Nodup := by
  have h : standingsPositions (readJsonD (mainRun wDupPos []).fs standingsPath) =
      [Json.num 1, Json.num 1] := rfl
  refine ⟨h, ?_⟩
  rw [h]
  intro hc
  rw [List.nodup_cons] at hc
  exact hc.1 (List.mem_singleton.mpr rfl)
